import Mathlib

/-!
Shallow embedding of `kafka_kerberos_utility.py` (class `KafkaKerberosUtility`):
configuration resolution (`_load_config`), validation (`_validate_config`),
Kerberos/JAAS setup as it affects the config dict (`_setup_kerberos` /
`_create_jaas_config`), the per-topic producer/consumer handle caches
(`get_producer` / `get_consumer` / `close`), and the consume poll loop
(`consume_messages`).

Python dictionaries holding the configuration are modelled extensionally as
functions `String → Option PyVal` (no claim observes dict iteration order;
the one ordered observation, the list of missing required fields, is ordered
by the `required_params` list in the source, not by the dict).
-/

/-- A Python value stored in the config dict: after `_load_config` these are
strings from the file/environment/defaults, or ints after numeric coercion. -/
inductive PyVal where
  | str (s : String)
  | int (n : Int)
  deriving Repr, DecidableEq

/-- The config dict, extensionally: key to optional value. -/
def PyDict : Type := String → Option PyVal

/-- `d[k] = v` (Python dict item assignment). -/
def dictSet (d : PyDict) (k : String) (v : PyVal) : PyDict :=
  fun k' => if k' = k then some v else d k'

/-- `d.setdefault(k, v)` restricted to its effect (the return value is unused
in the source). -/
def dictSetdefault (d : PyDict) (k : String) (v : PyVal) : PyDict :=
  match d k with
  | some _ => d
  | none => dictSet d k v

/-- Python truthiness test `not d.get(k)` on an optional config value:
absent (`None`), the empty string and the integer 0 are falsy. -/
def pyFalsy : Option PyVal → Bool
  | none => true
  | some (.str s) => s = ""
  | some (.int n) => n = 0

/-- The string content of a config value (required fields are strings on
every reachable path; ints render as their decimal form). -/
def pyStr : PyVal → String
  | .str s => s
  | .int n => toString n

/-- A whitespace character stripped by Python int() (the ASCII fragment of
str.strip). -/
def pyWhitespace (c : Char) : Bool :=
  c = ' ' || c = '\t' || c = '\n' || c = '\r' || c = '\x0b' || c = '\x0c'

/-- Continue a PEP 515 decimal numeral after at least one digit has been
read: a single underscore may separate digit groups, so an underscore must
be followed by a digit; anything else that is not a digit fails. -/
def digitsTail : List Char → Nat → Option Nat
  | [], acc => some acc
  | '_' :: c :: cs, acc =>
    if c.isDigit then digitsTail cs (acc * 10 + (c.toNat - 48)) else none
  | c :: cs, acc =>
    if c.isDigit then digitsTail cs (acc * 10 + (c.toNat - 48)) else none

/-- A PEP 515 decimal digit string: at least one digit, with single
underscores allowed only between digits (no leading or trailing underscore,
no doubled underscore); `none` on anything else. -/
def digitsToNat : List Char → Option Nat
  | [] => none
  | c :: cs => if c.isDigit then digitsTail cs (c.toNat - 48) else none

/-- Python `int(s)` on a string (ASCII scope; Unicode digits and Unicode
whitespace are out of scope): optional surrounding whitespace, optional
sign, then a PEP 515 digit string with optional underscore grouping;
`none` models the `ValueError` raise. -/
def pyIntOfString (s : String) : Option Int :=
  let cs := ((s.data.dropWhile pyWhitespace).reverse.dropWhile pyWhitespace).reverse
  match cs with
  | [] => none
  | '-' :: rest => (digitsToNat rest).map (fun n => -(n : Int))
  | '+' :: rest => (digitsToNat rest).map (fun n => (n : Int))
  | _ => (digitsToNat cs).map (fun n => (n : Int))

/-- Python `int(v)` on a config value: identity on ints, parse on strings. -/
def pyIntVal : PyVal → Option Int
  | .int n => some n
  | .str s => pyIntOfString s

/-- Errors raised during `_load_config`: `ValueError` is the language-native
exception raised by a failed `int(...)`; `KafkaKerberosError` is the
repository's unified error type. `_load_config` is not wrapped by any
`try/except`, so the constructor records which exception type escapes. -/
inductive PyError where
  | valueError (payload : String)
  | kafkaKerberosError (msg : String)
  deriving Repr, DecidableEq

/-- The environment mapping as read by the eleven `os.getenv` calls in
`_load_config`; `none` is an absent variable. -/
structure Env where
  bootstrap_servers : Option String := none
  topic : Option String := none
  keytab_path : Option String := none
  principal : Option String := none
  service_name : Option String := none
  jaas_config_path : Option String := none
  consumer_group_id : Option String := none
  auto_offset_reset : Option String := none
  max_poll_records : Option String := none
  session_timeout_ms : Option String := none
  heartbeat_interval_ms : Option String := none

/-- The `[kafka]` section of the config file as a key/value list; `none`
models a missing file path, a nonexistent file, or a file with no `kafka`
section (all of which leave the working dict empty in the source). -/
def FileSection : Type := List (String × String)

/-- `config.update(parser[ + kafka + ])`: seed the working dict from the file
section (each entry is a string value). -/
def seedFromFile : Option FileSection → PyDict
  | none => fun _ => none
  | some sec => sec.foldl (fun d kv => dictSet d kv.1 (.str kv.2)) (fun _ => none)

/-- One iteration of the overlay loop
`for key, value in env_config.items(): if value is not None: config[key] = value`. -/
def envOverlayOne (d : PyDict) (k : String) (v : Option String) : PyDict :=
  match v with
  | some s => dictSet d k (.str s)
  | none => d

/-- The merge phase of `_load_config`: file seed, then the environment
overlay in source order, then the six `setdefault` calls. -/
def mergeConfig (fileSec : Option FileSection) (env : Env) : PyDict :=
  let config := seedFromFile fileSec
  let config := envOverlayOne config "bootstrap_servers" env.bootstrap_servers
  let config := envOverlayOne config "topic" env.topic
  let config := envOverlayOne config "keytab_path" env.keytab_path
  let config := envOverlayOne config "principal" env.principal
  let config := envOverlayOne config "service_name" env.service_name
  let config := envOverlayOne config "jaas_config_path" env.jaas_config_path
  let config := envOverlayOne config "consumer_group_id" env.consumer_group_id
  let config := envOverlayOne config "auto_offset_reset" env.auto_offset_reset
  let config := envOverlayOne config "max_poll_records" env.max_poll_records
  let config := envOverlayOne config "session_timeout_ms" env.session_timeout_ms
  let config := envOverlayOne config "heartbeat_interval_ms" env.heartbeat_interval_ms
  let config := dictSetdefault config "service_name" (.str "kafka")
  let config := dictSetdefault config "consumer_group_id" (.str "kafka-utility-group")
  let config := dictSetdefault config "auto_offset_reset" (.str "earliest")
  let config := dictSetdefault config "max_poll_records" (.str "500")
  let config := dictSetdefault config "session_timeout_ms" (.str "30000")
  let config := dictSetdefault config "heartbeat_interval_ms" (.str "3000")
  config

/-- `if k in config: config[k] = int(config[k])` — the numeric coercion step;
a failed `int(...)` raises an unwrapped `ValueError` carrying the bad text. -/
def coerceIntKey (d : PyDict) (k : String) : Except PyError PyDict :=
  match d k with
  | none => .ok d
  | some v =>
    match pyIntVal v with
    | some n => .ok (dictSet d k (.int n))
    | none => .error (.valueError (pyStr v))

/-- `KafkaKerberosUtility._load_config`: merge file, environment and
defaults, then coerce the three numeric fields. -/
def loadConfig (fileSec : Option FileSection) (env : Env) : Except PyError PyDict := do
  let config := mergeConfig fileSec env
  let config ← coerceIntKey config "max_poll_records"
  let config ← coerceIntKey config "session_timeout_ms"
  let config ← coerceIntKey config "heartbeat_interval_ms"
  return config

/-- Modelled from the spec (section 4.1, for the refinement claim C1 only):
the resolved value of a field follows the strict precedence
environment > file > built-in default. -/
def specPrecedence (envVal : Option PyVal) (fileVal : Option PyVal)
    (dflt : Option PyVal) : Option PyVal :=
  envVal <|> fileVal <|> dflt

/-- The four required parameters checked by `_validate_config`, in source
order. -/
def requiredParams : List String :=
  ["bootstrap_servers", "topic", "keytab_path", "principal"]

/-- The list comprehension of `_validate_config`:
`[param for param in required_params if not self.config.get(param)]`. -/
def missingParams (config : PyDict) : List String :=
  requiredParams.filter (fun p => pyFalsy (config p))

/-- The three raise sites of `_validate_config`, one constructor per raise
(missing required parameters; keytab file not found; empty bootstrap
servers). -/
inductive ValidateError where
  | missingRequired (fields : List String)
  | keytabNotFound (path : String)
  | emptyBrokerList
  deriving Repr, DecidableEq

/-- `KafkaKerberosUtility._validate_config`; the filesystem consulted by
`os.path.exists` is abstracted as the predicate `pathExists`. -/
def validateConfig (config : PyDict) (pathExists : String → Bool) :
    Except ValidateError Unit :=
  let missing := missingParams config
  if missing = [] then
    let keytab := pyStr ((config "keytab_path").getD (.str ""))
    if pathExists keytab then
      if pyFalsy (config "bootstrap_servers") then .error .emptyBrokerList
      else .ok ()
    else .error (.keytabNotFound keytab)
  else .error (.missingRequired missing)

/-- The well-known path where `_create_jaas_config` writes the JAAS file. -/
def jaasFixedPath : String := "/tmp/kafka_jaas.conf"

/-- The effect of `_setup_kerberos` on the config dict. When
`jaas_config_path` is falsy it calls `_create_jaas_config`, whose JAAS
f-string subscripts `config` at `keytab_path` and then `principal` before
reaching the `try`: a missing key raises `KeyError` there, which the
surrounding `except Exception` of `_setup_kerberos` wraps into
`KafkaKerberosError`, and the write-back at line 235 never runs. When both
keys are present the file is written and the fixed path is recorded back
into the config. A truthy `jaas_config_path` leaves the config untouched
(only process environment variables are set). -/
def setupKerberosConfig (config : PyDict) : Except PyError PyDict :=
  if pyFalsy (config "jaas_config_path") then
    match config "keytab_path", config "principal" with
    | some _, some _ => .ok (dictSet config "jaas_config_path" (.str jaasFixedPath))
    | _, _ => .error (.kafkaKerberosError "Failed to setup Kerberos authentication: KeyError")
  else .ok config

/-- The session state of a `KafkaKerberosUtility` object: the config dict,
the two per-topic handle caches (`self._producers`, `self._consumers`), and
the count of underlying client constructions performed so far. A handle is
modelled by the index of its construction, so handle equality models Python
reference identity. -/
structure Session where
  config : PyDict
  producers : String → Option Nat
  consumers : String → Option Nat
  constructions : Nat

/-- `topic = topic or self.config['topic']` (Python `or`: passing an empty
string also falls back to the configured default topic). -/
def resolveTopic (s : Session) (topic : Option String) : String :=
  match topic with
  | some t => if t = "" then pyStr ((s.config "topic").getD (.str "")) else t
  | none => pyStr ((s.config "topic").getD (.str ""))

/-- `KafkaKerberosUtility.get_producer`: return the cached producer for the
topic, constructing and caching one on a cache miss. Construction of the
underlying `KafkaProducer` is the external collaborator, assumed to succeed
(the `try/except` wraps only its failure) and modelled as minting a fresh
handle. -/
def getProducer (s : Session) (topic : Option String) : Nat × Session :=
  let t := resolveTopic s topic
  match s.producers t with
  | some h => (h, s)
  | none =>
    let h := s.constructions
    (h, { s with
            producers := fun k => if k = t then some h else s.producers k,
            constructions := s.constructions + 1 })

/-- `KafkaKerberosUtility.get_consumer`: the same caching discipline on the
consumer cache. -/
def getConsumer (s : Session) (topic : Option String) : Nat × Session :=
  let t := resolveTopic s topic
  match s.consumers t with
  | some h => (h, s)
  | none =>
    let h := s.constructions
    (h, { s with
            consumers := fun k => if k = t then some h else s.consumers k,
            constructions := s.constructions + 1 })

/-- `KafkaKerberosUtility.close`: close every cached handle and clear both
caches; the config dict is not touched. -/
def closeSession (s : Session) : Session :=
  { s with producers := fun _ => none, consumers := fun _ => none }

/-- A consumed record: the deserialized payload carried in `record.value`
(topic/partition/offset metadata is used only for logging). -/
structure Record where
  value : Int
  deriving Repr, DecidableEq

/-- One return value of `consumer.poll`: a dict from topic-partition to the
records fetched for it, in iteration order. The empty list is the empty
dict — a poll that returned no records. -/
abbrev Batch := List (Nat × List Record)

/-- A message handler, called as `message_handler(message, record)`;
`Except.error` models the handler raising an exception. -/
abbrev Handler := Int → Record → Except String Unit

/-- The mutable state of the consume loop: `messages`, `message_count`, and
the log of handler errors written by `self.logger.error`. -/
structure LoopSt where
  messages : List Int
  count : Nat
  errorLog : List String
  deriving Repr, DecidableEq

/-- The `try/except` boundary around the handler invocation: call the
handler if given; a raise appends to the error log and is swallowed —
no other loop state is touched. -/
def handlerStep (handler : Option Handler) (r : Record) (st : LoopSt) : LoopSt :=
  match handler with
  | none => st
  | some h =>
    match h r.value r with
    | .ok _ => st
    | .error e => { st with errorLog := st.errorLog ++ [e] }

/-- The innermost loop `for record in records`: append the payload, bump the
count, invoke the handler inside its `try/except` boundary (a raise is
logged and swallowed), then `break` once
`max_messages and message_count >= max_messages`. `maxMessages = 0` models
both `None` and `0`, which are falsy in Python. -/
def processRecords (maxMessages : Nat) (handler : Option Handler)
    (records : List Record) (st : LoopSt) : LoopSt :=
  match records with
  | [] => st
  | r :: rest =>
    let st2 := handlerStep handler r
      { st with messages := st.messages ++ [r.value], count := st.count + 1 }
    if maxMessages ≠ 0 ∧ maxMessages ≤ st2.count then st2
    else processRecords maxMessages handler rest st2

/-- The middle loop `for tp, records in message_batch.items()`: the inner
`break` leaves only the record loop, so iteration continues with the next
partition even after the cap is reached. -/
def processBatch (maxMessages : Nat) (handler : Option Handler)
    (batch : Batch) (st : LoopSt) : LoopSt :=
  match batch with
  | [] => st
  | (_, records) :: rest =>
    processBatch maxMessages handler rest (processRecords maxMessages handler records st)

/-- The `while True` poll loop of `consume_messages`. The poll schedule
lists the successive returns of `consumer.poll`; once it is exhausted,
every further poll returns the empty dict (no records available). Returns
the final loop state together with the number of polls performed. -/
def consumeRun (maxMessages : Nat) (handler : Option Handler)
    (polls : List Batch) (st : LoopSt) (pollsMade : Nat) : LoopSt × Nat :=
  if maxMessages ≠ 0 ∧ maxMessages ≤ st.count then (st, pollsMade)
  else
    match polls with
    | [] => (st, pollsMade + 1)
    | batch :: rest =>
      let st1 := processBatch maxMessages handler batch st
      if batch.isEmpty then (st1, pollsMade + 1)
      else consumeRun maxMessages handler rest st1 (pollsMade + 1)

/-- `KafkaKerberosUtility.consume_messages`, run over a poll schedule. -/
def consumeMessages (maxMessages : Nat) (handler : Option Handler)
    (polls : List Batch) : LoopSt × Nat :=
  consumeRun maxMessages handler polls ⟨[], 0, []⟩ 0

/-- Number of records delivered by one poll batch. -/
def recCount (batch : Batch) : Nat := (batch.map (fun p => p.2.length)).sum

/-- The payloads of one poll batch in iteration (arrival) order. -/
def batchVals (batch : Batch) : List Int :=
  (batch.map (fun p => p.2.map Record.value)).flatten

/-- Total number of records across a poll schedule. -/
def schedCount (polls : List Batch) : Nat := (polls.map recCount).sum

/-- All payloads of a poll schedule in arrival order. -/
def schedVals (polls : List Batch) : List Int := (polls.map batchVals).flatten

theorem dictSet_get_self (d : PyDict) (k : String) (v : PyVal) :
    dictSet d k v k = some v := by
  simp [dictSet]

theorem dictSet_get_ne (d : PyDict) (k : String) (v : PyVal) (k' : String)
    (h : k' ≠ k) : dictSet d k v k' = d k' := by
  simp [dictSet, h]

theorem dictSetdefault_get_self (d : PyDict) (k : String) (v : PyVal) :
    dictSetdefault d k v k = (d k <|> some v) := by
  unfold dictSetdefault
  cases h : d k <;> simp [h, dictSet_get_self]

theorem dictSetdefault_get_ne (d : PyDict) (k : String) (v : PyVal) (k' : String)
    (h : k' ≠ k) : dictSetdefault d k v k' = d k' := by
  unfold dictSetdefault
  cases hd : d k <;> simp [dictSet_get_ne, h]

theorem envOverlayOne_get_self (d : PyDict) (k : String) (v : Option String) :
    envOverlayOne d k v k = (v.map PyVal.str <|> d k) := by
  cases v <;> simp [envOverlayOne, dictSet_get_self]

theorem envOverlayOne_get_ne (d : PyDict) (k : String) (v : Option String)
    (k' : String) (h : k' ≠ k) : envOverlayOne d k v k' = d k' := by
  cases v <;> simp [envOverlayOne, dictSet_get_ne, h]

theorem mergeConfig_bootstrap_servers (fileSec : Option FileSection) (env : Env) :
    mergeConfig fileSec env "bootstrap_servers" =
      specPrecedence (env.bootstrap_servers.map PyVal.str)
        (seedFromFile fileSec "bootstrap_servers") none := by
  simp [mergeConfig, specPrecedence, envOverlayOne_get_self, envOverlayOne_get_ne,
    dictSetdefault_get_ne]

theorem mergeConfig_topic (fileSec : Option FileSection) (env : Env) :
    mergeConfig fileSec env "topic" =
      specPrecedence (env.topic.map PyVal.str) (seedFromFile fileSec "topic") none := by
  simp [mergeConfig, specPrecedence, envOverlayOne_get_self, envOverlayOne_get_ne,
    dictSetdefault_get_ne]

theorem mergeConfig_keytab_path (fileSec : Option FileSection) (env : Env) :
    mergeConfig fileSec env "keytab_path" =
      specPrecedence (env.keytab_path.map PyVal.str)
        (seedFromFile fileSec "keytab_path") none := by
  simp [mergeConfig, specPrecedence, envOverlayOne_get_self, envOverlayOne_get_ne,
    dictSetdefault_get_ne]

theorem mergeConfig_principal (fileSec : Option FileSection) (env : Env) :
    mergeConfig fileSec env "principal" =
      specPrecedence (env.principal.map PyVal.str)
        (seedFromFile fileSec "principal") none := by
  simp [mergeConfig, specPrecedence, envOverlayOne_get_self, envOverlayOne_get_ne,
    dictSetdefault_get_ne]

theorem mergeConfig_jaas_config_path (fileSec : Option FileSection) (env : Env) :
    mergeConfig fileSec env "jaas_config_path" =
      specPrecedence (env.jaas_config_path.map PyVal.str)
        (seedFromFile fileSec "jaas_config_path") none := by
  simp [mergeConfig, specPrecedence, envOverlayOne_get_self, envOverlayOne_get_ne,
    dictSetdefault_get_ne]

theorem mergeConfig_service_name (fileSec : Option FileSection) (env : Env) :
    mergeConfig fileSec env "service_name" =
      specPrecedence (env.service_name.map PyVal.str)
        (seedFromFile fileSec "service_name") (some (.str "kafka")) := by
  cases he : env.service_name <;> cases hs : seedFromFile fileSec "service_name" <;>
    simp [mergeConfig, specPrecedence, envOverlayOne_get_self, envOverlayOne_get_ne,
      dictSetdefault_get_self, dictSetdefault_get_ne, he, hs]

theorem mergeConfig_consumer_group_id (fileSec : Option FileSection) (env : Env) :
    mergeConfig fileSec env "consumer_group_id" =
      specPrecedence (env.consumer_group_id.map PyVal.str)
        (seedFromFile fileSec "consumer_group_id")
        (some (.str "kafka-utility-group")) := by
  cases he : env.consumer_group_id <;> cases hs : seedFromFile fileSec "consumer_group_id" <;>
    simp [mergeConfig, specPrecedence, envOverlayOne_get_self, envOverlayOne_get_ne,
      dictSetdefault_get_self, dictSetdefault_get_ne, he, hs]

theorem mergeConfig_auto_offset_reset (fileSec : Option FileSection) (env : Env) :
    mergeConfig fileSec env "auto_offset_reset" =
      specPrecedence (env.auto_offset_reset.map PyVal.str)
        (seedFromFile fileSec "auto_offset_reset") (some (.str "earliest")) := by
  cases he : env.auto_offset_reset <;> cases hs : seedFromFile fileSec "auto_offset_reset" <;>
    simp [mergeConfig, specPrecedence, envOverlayOne_get_self, envOverlayOne_get_ne,
      dictSetdefault_get_self, dictSetdefault_get_ne, he, hs]

theorem mergeConfig_max_poll_records (fileSec : Option FileSection) (env : Env) :
    mergeConfig fileSec env "max_poll_records" =
      specPrecedence (env.max_poll_records.map PyVal.str)
        (seedFromFile fileSec "max_poll_records") (some (.str "500")) := by
  cases he : env.max_poll_records <;> cases hs : seedFromFile fileSec "max_poll_records" <;>
    simp [mergeConfig, specPrecedence, envOverlayOne_get_self, envOverlayOne_get_ne,
      dictSetdefault_get_self, dictSetdefault_get_ne, he, hs]

theorem mergeConfig_session_timeout_ms (fileSec : Option FileSection) (env : Env) :
    mergeConfig fileSec env "session_timeout_ms" =
      specPrecedence (env.session_timeout_ms.map PyVal.str)
        (seedFromFile fileSec "session_timeout_ms") (some (.str "30000")) := by
  cases he : env.session_timeout_ms <;> cases hs : seedFromFile fileSec "session_timeout_ms" <;>
    simp [mergeConfig, specPrecedence, envOverlayOne_get_self, envOverlayOne_get_ne,
      dictSetdefault_get_self, dictSetdefault_get_ne, he, hs]

theorem mergeConfig_heartbeat_interval_ms (fileSec : Option FileSection) (env : Env) :
    mergeConfig fileSec env "heartbeat_interval_ms" =
      specPrecedence (env.heartbeat_interval_ms.map PyVal.str)
        (seedFromFile fileSec "heartbeat_interval_ms") (some (.str "3000")) := by
  cases he : env.heartbeat_interval_ms <;> cases hs : seedFromFile fileSec "heartbeat_interval_ms" <;>
    simp [mergeConfig, specPrecedence, envOverlayOne_get_self, envOverlayOne_get_ne,
      dictSetdefault_get_self, dictSetdefault_get_ne, he, hs]

theorem coerceIntKey_ok_ne (d : PyDict) (k : String) (d' : PyDict)
    (h : coerceIntKey d k = .ok d') (k' : String) (hk : k' ≠ k) : d' k' = d k' := by
  unfold coerceIntKey at h
  cases hd : d k with
  | none => rw [hd] at h; cases h; rfl
  | some v =>
    rw [hd] at h
    dsimp only at h
    cases hv : pyIntVal v with
    | none => simp only [hv] at h; cases h
    | some n =>
      simp only [hv] at h
      cases h
      exact dictSet_get_ne _ _ _ _ hk

theorem coerceIntKey_ok_get (d : PyDict) (k : String) (d' : PyDict)
    (h : coerceIntKey d k = .ok d') :
    d' k = (d k).bind (fun v => (pyIntVal v).map PyVal.int) := by
  unfold coerceIntKey at h
  cases hd : d k with
  | none => rw [hd] at h; cases h; simp [hd]
  | some v =>
    rw [hd] at h
    dsimp only at h
    cases hv : pyIntVal v with
    | none => simp only [hv] at h; cases h
    | some n =>
      simp only [hv] at h
      cases h
      simp [hd, hv, dictSet_get_self]

theorem coerceIntKey_error_shape (d : PyDict) (k : String) (e : PyError)
    (h : coerceIntKey d k = .error e) : ∃ s, e = .valueError s := by
  unfold coerceIntKey at h
  cases hd : d k with
  | none => rw [hd] at h; cases h
  | some v =>
    rw [hd] at h
    dsimp only at h
    cases hv : pyIntVal v with
    | none =>
      simp only [hv] at h
      cases h
      exact ⟨pyStr v, rfl⟩
    | some n => simp only [hv] at h; cases h

/-- Claim C1: for every config-file/environment combination, when
`_load_config` succeeds, the resolved value of each recognized field equals
the environment value when the environment variable is present, else the
file value when present in the kafka section, else the documented default
(service_name "kafka", consumer_group_id "kafka-utility-group",
auto_offset_reset "earliest", max_poll_records 500, session_timeout_ms
30000, heartbeat_interval_ms 3000, the three numeric fields being coerced
to integers); a required field absent from both sources remains absent. -/
theorem c1_resolution_precedence (fileSec : Option FileSection) (env : Env) :
    match loadConfig fileSec env with
    | .error _ => True
    | .ok cfg =>
      cfg "bootstrap_servers" = specPrecedence (env.bootstrap_servers.map PyVal.str)
        (seedFromFile fileSec "bootstrap_servers") none
      ∧ cfg "topic" = specPrecedence (env.topic.map PyVal.str)
        (seedFromFile fileSec "topic") none
      ∧ cfg "keytab_path" = specPrecedence (env.keytab_path.map PyVal.str)
        (seedFromFile fileSec "keytab_path") none
      ∧ cfg "principal" = specPrecedence (env.principal.map PyVal.str)
        (seedFromFile fileSec "principal") none
      ∧ cfg "jaas_config_path" = specPrecedence (env.jaas_config_path.map PyVal.str)
        (seedFromFile fileSec "jaas_config_path") none
      ∧ cfg "service_name" = specPrecedence (env.service_name.map PyVal.str)
        (seedFromFile fileSec "service_name") (some (.str "kafka"))
      ∧ cfg "consumer_group_id" = specPrecedence (env.consumer_group_id.map PyVal.str)
        (seedFromFile fileSec "consumer_group_id") (some (.str "kafka-utility-group"))
      ∧ cfg "auto_offset_reset" = specPrecedence (env.auto_offset_reset.map PyVal.str)
        (seedFromFile fileSec "auto_offset_reset") (some (.str "earliest"))
      ∧ cfg "max_poll_records" = (specPrecedence (env.max_poll_records.map PyVal.str)
        (seedFromFile fileSec "max_poll_records") (some (.str "500"))).bind
          (fun v => (pyIntVal v).map PyVal.int)
      ∧ cfg "session_timeout_ms" = (specPrecedence (env.session_timeout_ms.map PyVal.str)
        (seedFromFile fileSec "session_timeout_ms") (some (.str "30000"))).bind
          (fun v => (pyIntVal v).map PyVal.int)
      ∧ cfg "heartbeat_interval_ms" = (specPrecedence (env.heartbeat_interval_ms.map PyVal.str)
        (seedFromFile fileSec "heartbeat_interval_ms") (some (.str "3000"))).bind
          (fun v => (pyIntVal v).map PyVal.int) := by
  cases h1 : coerceIntKey (mergeConfig fileSec env) "max_poll_records" with
  | error e => simp [loadConfig, h1, bind, Except.bind]
  | ok d1 =>
    cases h2 : coerceIntKey d1 "session_timeout_ms" with
    | error e => simp [loadConfig, h1, h2, bind, Except.bind]
    | ok d2 =>
      cases h3 : coerceIntKey d2 "heartbeat_interval_ms" with
      | error e => simp [loadConfig, h1, h2, h3, bind, Except.bind]
      | ok d3 =>
        have run : loadConfig fileSec env = .ok d3 := by
          simp [loadConfig, h1, h2, h3, bind, Except.bind, pure, Except.pure]
        rw [run]
        have g1 := coerceIntKey_ok_ne _ _ _ h1
        have g2 := coerceIntKey_ok_ne _ _ _ h2
        have g3 := coerceIntKey_ok_ne _ _ _ h3
        refine ⟨?_, ?_, ?_, ?_, ?_, ?_, ?_, ?_, ?_, ?_, ?_⟩
        · rw [g3 _ (by decide), g2 _ (by decide), g1 _ (by decide),
            mergeConfig_bootstrap_servers]
        · rw [g3 _ (by decide), g2 _ (by decide), g1 _ (by decide), mergeConfig_topic]
        · rw [g3 _ (by decide), g2 _ (by decide), g1 _ (by decide), mergeConfig_keytab_path]
        · rw [g3 _ (by decide), g2 _ (by decide), g1 _ (by decide), mergeConfig_principal]
        · rw [g3 _ (by decide), g2 _ (by decide), g1 _ (by decide),
            mergeConfig_jaas_config_path]
        · rw [g3 _ (by decide), g2 _ (by decide), g1 _ (by decide), mergeConfig_service_name]
        · rw [g3 _ (by decide), g2 _ (by decide), g1 _ (by decide),
            mergeConfig_consumer_group_id]
        · rw [g3 _ (by decide), g2 _ (by decide), g1 _ (by decide),
            mergeConfig_auto_offset_reset]
        · rw [g3 _ (by decide), g2 _ (by decide), coerceIntKey_ok_get _ _ _ h1,
            mergeConfig_max_poll_records]
        · rw [g3 _ (by decide), coerceIntKey_ok_get _ _ _ h2, g1 _ (by decide),
            mergeConfig_session_timeout_ms]
        · rw [coerceIntKey_ok_get _ _ _ h3, g2 _ (by decide), g1 _ (by decide),
            mergeConfig_heartbeat_interval_ms]

theorem coerceIntKey_ok_isInt (d : PyDict) (k : String) (d' : PyDict)
    (h : coerceIntKey d k = .ok d') (v : PyVal) (hd : d k = some v) :
    ∃ n, d' k = some (.int n) := by
  unfold coerceIntKey at h
  rw [hd] at h
  dsimp only at h
  cases hv : pyIntVal v with
  | none => simp only [hv] at h; cases h
  | some n =>
    simp only [hv] at h
    cases h
    exact ⟨n, dictSet_get_self _ _ _⟩

theorem specPrecedence_isSome (a b : Option PyVal) (c : PyVal) :
    (specPrecedence a b (some c)).isSome := by
  cases a <;> cases b <;> simp [specPrecedence]

/-- Claim C2: validation fails with the missing-required error listing
exactly the set of required fields among bootstrap_servers, topic,
keytab_path, principal that are absent or empty — all reported together in
the one error — and validation passes this check only when all four are
present and non-empty. -/
theorem c2_validate_missing_required (config : PyDict) (pathExists : String → Bool) :
    (missingParams config ≠ [] →
      validateConfig config pathExists = .error (.missingRequired (missingParams config)))
    ∧ (missingParams config = [] →
      ∀ fields, validateConfig config pathExists ≠ .error (.missingRequired fields))
    ∧ (∀ f, f ∈ missingParams config ↔ f ∈ requiredParams ∧ pyFalsy (config f)) := by
  refine ⟨?_, ?_, ?_⟩
  · intro h
    simp [validateConfig, h]
  · intro h fields
    intro hcontra
    unfold validateConfig at hcontra
    rw [h] at hcontra
    simp only [reduceIte] at hcontra
    split at hcontra
    · split at hcontra <;> cases hcontra
    · cases hcontra
  · intro f
    simp [missingParams, List.mem_filter]

/-- Witness for C2: on the empty configuration all four required fields are
reported missing together. -/
theorem c2_validate_missing_required_witness :
    validateConfig (fun _ => none) (fun _ => true) =
      .error (.missingRequired
        ["bootstrap_servers", "topic", "keytab_path", "principal"]) := by
  exact (c2_validate_missing_required (fun _ => none) (fun _ => true)).1 (by decide)

/-- A resolved config whose broker list is present but empty while the other
required fields are present and non-empty. -/
def emptyBrokerConfig : PyDict := fun k =>
  if k = "bootstrap_servers" then some (.str "")
  else if k = "topic" then some (.str "test-topic")
  else if k = "keytab_path" then some (.str "/tmp/test.keytab")
  else if k = "principal" then some (.str "user@REALM")
  else none

/-- Counterexample to C3: with bootstrap_servers present but equal to the
empty string and all other required fields valid, validation raises the
missing-required error, not the empty-broker-list error. -/
theorem c3_empty_broker_counterexample :
    validateConfig emptyBrokerConfig (fun _ => true) =
      .error (.missingRequired ["bootstrap_servers"])
    ∧ validateConfig emptyBrokerConfig (fun _ => true) ≠ .error .emptyBrokerList := by
  have hv : validateConfig emptyBrokerConfig (fun _ => true) =
      .error (.missingRequired ["bootstrap_servers"]) := rfl
  refine ⟨hv, ?_⟩
  rw [hv]
  simp

/-- Claim C3 (amended): an empty bootstrap_servers string is caught by the
missing-required check, which treats empty as missing; the dedicated
empty-broker-list branch of `_validate_config` is unreachable for every
config. -/
theorem c3_empty_broker_amended (config : PyDict) (pathExists : String → Bool) :
    validateConfig config pathExists ≠ .error .emptyBrokerList
    ∧ (config "bootstrap_servers" = some (.str "") →
       pyFalsy (config "topic") = false →
       pyFalsy (config "keytab_path") = false →
       pyFalsy (config "principal") = false →
       validateConfig config pathExists = .error (.missingRequired ["bootstrap_servers"])) := by
  constructor
  · by_cases hm : missingParams config = []
    · have hb : pyFalsy (config "bootstrap_servers") = false := by
        by_contra hb
        have hmem : "bootstrap_servers" ∈ missingParams config := by
          simp only [Bool.not_eq_false] at hb
          simp [missingParams, requiredParams, hb]
        rw [hm] at hmem
        simp at hmem
      simp only [validateConfig, hm]
      simp [hb]
      split <;> simp
    · simp [validateConfig, hm]
  · intro h1 h2 h3 h4
    have h1f : pyFalsy (config "bootstrap_servers") = true := by rw [h1]; rfl
    have hm : missingParams config = ["bootstrap_servers"] := by
      simp [missingParams, requiredParams, List.filter_cons, h1f, h2, h3, h4]
    simp [validateConfig, hm]

/-- Witness for C3 (amended) at the concrete empty-broker config. -/
theorem c3_empty_broker_amended_witness :
    validateConfig emptyBrokerConfig (fun _ => true) ≠ .error .emptyBrokerList
    ∧ validateConfig emptyBrokerConfig (fun _ => true) =
      .error (.missingRequired ["bootstrap_servers"]) := by
  have h := c3_empty_broker_amended emptyBrokerConfig (fun _ => true)
  exact ⟨h.1, h.2 (by decide) (by decide) (by decide) (by decide)⟩

/-- The environment of the C4 counterexample: KAFKA_MAX_POLL_RECORDS is set
to a string that int() cannot parse. -/
def badNumericEnv : Env := { max_poll_records := some "abc" }

/-- Counterexample to C4: a non-coercible max_poll_records makes
`_load_config` raise the language-native ValueError unwrapped, not the
unified KafkaKerberosError the spec promises. -/
theorem c4_invalid_numeric_counterexample :
    loadConfig none badNumericEnv = .error (.valueError "abc") := by
  rfl

/-- Claim C4 (amended): a failed numeric coercion in `_load_config` escapes
as the unwrapped language-native ValueError, never the unified
KafkaKerberosError; when loading succeeds, the three numeric fields are
integers. -/
theorem c4_numeric_coercion_amended (fileSec : Option FileSection) (env : Env) :
    match loadConfig fileSec env with
    | .ok cfg =>
      (∃ n, cfg "max_poll_records" = some (.int n))
      ∧ (∃ n, cfg "session_timeout_ms" = some (.int n))
      ∧ (∃ n, cfg "heartbeat_interval_ms" = some (.int n))
    | .error e => ∃ s, e = .valueError s := by
  cases h1 : coerceIntKey (mergeConfig fileSec env) "max_poll_records" with
  | error e =>
    have run : loadConfig fileSec env = .error e := by
      simp [loadConfig, h1, bind, Except.bind]
    rw [run]
    exact coerceIntKey_error_shape _ _ _ h1
  | ok d1 =>
    cases h2 : coerceIntKey d1 "session_timeout_ms" with
    | error e =>
      have run : loadConfig fileSec env = .error e := by
        simp [loadConfig, h1, h2, bind, Except.bind]
      rw [run]
      exact coerceIntKey_error_shape _ _ _ h2
    | ok d2 =>
      cases h3 : coerceIntKey d2 "heartbeat_interval_ms" with
      | error e =>
        have run : loadConfig fileSec env = .error e := by
          simp [loadConfig, h1, h2, h3, bind, Except.bind]
        rw [run]
        exact coerceIntKey_error_shape _ _ _ h3
      | ok d3 =>
        have run : loadConfig fileSec env = .ok d3 := by
          simp [loadConfig, h1, h2, h3, bind, Except.bind, pure, Except.pure]
        rw [run]
        have g2 := coerceIntKey_ok_ne _ _ _ h2
        have g3 := coerceIntKey_ok_ne _ _ _ h3
        obtain ⟨vm, hvm⟩ := Option.isSome_iff_exists.mp
          (mergeConfig_max_poll_records fileSec env ▸ specPrecedence_isSome _ _ _)
        obtain ⟨vs, hvs⟩ := Option.isSome_iff_exists.mp
          (mergeConfig_session_timeout_ms fileSec env ▸ specPrecedence_isSome _ _ _)
        obtain ⟨vh, hvh⟩ := Option.isSome_iff_exists.mp
          (mergeConfig_heartbeat_interval_ms fileSec env ▸ specPrecedence_isSome _ _ _)
        refine ⟨?_, ?_, ?_⟩
        · obtain ⟨n, hn⟩ := coerceIntKey_ok_isInt _ _ _ h1 vm hvm
          exact ⟨n, by rw [g3 _ (by decide), g2 _ (by decide), hn]⟩
        · have hd1 : d1 "session_timeout_ms" = some vs := by
            rw [coerceIntKey_ok_ne _ _ _ h1 _ (by decide), hvs]
          obtain ⟨n, hn⟩ := coerceIntKey_ok_isInt _ _ _ h2 vs hd1
          exact ⟨n, by rw [g3 _ (by decide), hn]⟩
        · have hd2 : d2 "heartbeat_interval_ms" = some vh := by
            rw [g2 _ (by decide), coerceIntKey_ok_ne _ _ _ h1 _ (by decide), hvh]
          obtain ⟨n, hn⟩ := coerceIntKey_ok_isInt _ _ _ h3 vh hd2
          exact ⟨n, hn⟩

/-- A validated resolved config (all four required fields present and
non-empty) that lacks jaas_config_path — the configuration of a session
whose credential setup generates the JAAS file. -/
def noJaasConfig : PyDict := fun k =>
  if k = "bootstrap_servers" then some (.str "localhost:9092")
  else if k = "topic" then some (.str "test-topic")
  else if k = "keytab_path" then some (.str "/tmp/test.keytab")
  else if k = "principal" then some (.str "user@REALM")
  else none

/-- Counterexample to C5: on a validated config that lacks
jaas_config_path, credential setup succeeds and mutates the config,
writing the fixed generated JAAS path into it. -/
theorem c5_immutability_counterexample :
    (match setupKerberosConfig noJaasConfig with
     | .ok d => d "jaas_config_path" = some (.str "/tmp/kafka_jaas.conf")
     | .error _ => False)
    ∧ noJaasConfig "jaas_config_path" = none := by
  exact ⟨rfl, rfl⟩

/-- Claim C5 (amended): credential setup is the one exception to config
immutability — when it returns normally it has changed at most
jaas_config_path (set to the fixed generated path, and only when that
field was absent or empty); a truthy jaas_config_path leaves the config
untouched; when keytab_path or principal is absent the JAAS f-string
raises before the write-back, so the config is not mutated, and that is
the only way credential setup fails; handle creation and close never
change the config. -/
theorem c5_config_mutation_amended (config : PyDict) (k : String)
    (s : Session) (topic : Option String) :
    (∀ d, setupKerberosConfig config = .ok d → k ≠ "jaas_config_path" → d k = config k)
    ∧ (pyFalsy (config "jaas_config_path") = false →
        setupKerberosConfig config = .ok config)
    ∧ (∀ e, setupKerberosConfig config = .error e →
        pyFalsy (config "jaas_config_path") = true
        ∧ (config "keytab_path" = none ∨ config "principal" = none))
    ∧ (getProducer s topic).2.config = s.config
    ∧ (getConsumer s topic).2.config = s.config
    ∧ (closeSession s).config = s.config := by
  refine ⟨?_, ?_, ?_, ?_, ?_, rfl⟩
  · intro d hd hk
    unfold setupKerberosConfig at hd
    by_cases hj : pyFalsy (config "jaas_config_path") = true
    · rw [if_pos hj] at hd
      cases hkt : config "keytab_path" with
      | none => rw [hkt] at hd; dsimp only at hd; cases hd
      | some vk =>
        cases hpr : config "principal" with
        | none => rw [hkt, hpr] at hd; dsimp only at hd; cases hd
        | some vp =>
          rw [hkt, hpr] at hd
          dsimp only at hd
          cases hd
          exact dictSet_get_ne _ _ _ _ hk
    · rw [if_neg hj] at hd
      cases hd
      rfl
  · intro h
    simp [setupKerberosConfig, h]
  · intro e he
    unfold setupKerberosConfig at he
    by_cases hj : pyFalsy (config "jaas_config_path") = true
    · refine ⟨hj, ?_⟩
      rw [if_pos hj] at he
      cases hkt : config "keytab_path" with
      | none => exact Or.inl rfl
      | some vk =>
        cases hpr : config "principal" with
        | none => exact Or.inr rfl
        | some vp => rw [hkt, hpr] at he; dsimp only at he; cases he
    · rw [if_neg hj] at he
      cases he
  · unfold getProducer
    cases hp : s.producers (resolveTopic s topic) <;> simp [hp]
  · unfold getConsumer
    cases hc : s.consumers (resolveTopic s topic) <;> simp [hc]

/-- A config whose jaas_config_path is already set and non-empty. -/
def presetJaasConfig : PyDict := fun k =>
  if k = "jaas_config_path" then some (.str "/etc/kafka/jaas.conf") else none

/-- A concrete session with a default topic and empty handle caches. -/
def demoSession : Session :=
  { config := fun k => if k = "topic" then some (.str "demo-topic") else none,
    producers := fun _ => none,
    consumers := fun _ => none,
    constructions := 0 }

/-- Witness for C5 (amended) at concrete inputs: the mutating run on a
validated config preserves every other field (topic shown), a preset
jaas_config_path is left untouched, and the session operations keep the
config. -/
theorem c5_config_mutation_amended_witness :
    dictSet noJaasConfig "jaas_config_path" (.str jaasFixedPath) "topic" =
      noJaasConfig "topic"
    ∧ setupKerberosConfig presetJaasConfig = .ok presetJaasConfig
    ∧ (getProducer demoSession (some "t")).2.config = demoSession.config
    ∧ (getConsumer demoSession (some "t")).2.config = demoSession.config
    ∧ (closeSession demoSession).config = demoSession.config := by
  have h := c5_config_mutation_amended noJaasConfig "topic" demoSession (some "t")
  have h2 := c5_config_mutation_amended presetJaasConfig "topic" demoSession (some "t")
  exact ⟨h.1 _ rfl (by decide), h2.2.1 (by decide), h.2.2.2.1, h.2.2.2.2.1, h.2.2.2.2.2⟩

theorem resolveTopic_update_producers (s : Session) (topic : Option String)
    (f : String → Option Nat) (n : Nat) :
    resolveTopic { s with producers := f, constructions := n } topic =
      resolveTopic s topic := rfl

theorem resolveTopic_update_consumers (s : Session) (topic : Option String)
    (f : String → Option Nat) (n : Nat) :
    resolveTopic { s with consumers := f, constructions := n } topic =
      resolveTopic s topic := rfl

theorem getProducer_hit (s : Session) (topic : Option String) (h : Nat)
    (hp : s.producers (resolveTopic s topic) = some h) :
    getProducer s topic = (h, s) := by
  unfold getProducer
  dsimp only
  rw [hp]

theorem getProducer_miss (s : Session) (topic : Option String)
    (hp : s.producers (resolveTopic s topic) = none) :
    getProducer s topic =
      (s.constructions,
        { s with
            producers := fun k =>
              if k = resolveTopic s topic then some s.constructions else s.producers k,
            constructions := s.constructions + 1 }) := by
  unfold getProducer
  dsimp only
  rw [hp]

theorem getConsumer_hit (s : Session) (topic : Option String) (h : Nat)
    (hc : s.consumers (resolveTopic s topic) = some h) :
    getConsumer s topic = (h, s) := by
  unfold getConsumer
  dsimp only
  rw [hc]

theorem getConsumer_miss (s : Session) (topic : Option String)
    (hc : s.consumers (resolveTopic s topic) = none) :
    getConsumer s topic =
      (s.constructions,
        { s with
            consumers := fun k =>
              if k = resolveTopic s topic then some s.constructions else s.consumers k,
            constructions := s.constructions + 1 }) := by
  unfold getConsumer
  dsimp only
  rw [hc]

theorem getProducer_cached_after (s : Session) (topic : Option String) :
    (getProducer s topic).2.producers (resolveTopic (getProducer s topic).2 topic) =
      some (getProducer s topic).1 := by
  cases hp : s.producers (resolveTopic s topic) with
  | some h => rw [getProducer_hit s topic h hp]; exact hp
  | none =>
    rw [getProducer_miss s topic hp]
    dsimp only
    rw [resolveTopic_update_producers]
    simp

theorem getConsumer_cached_after (s : Session) (topic : Option String) :
    (getConsumer s topic).2.consumers (resolveTopic (getConsumer s topic).2 topic) =
      some (getConsumer s topic).1 := by
  cases hc : s.consumers (resolveTopic s topic) with
  | some h => rw [getConsumer_hit s topic h hc]; exact hc
  | none =>
    rw [getConsumer_miss s topic hc]
    dsimp only
    rw [resolveTopic_update_consumers]
    simp

/-- Claim C6: for each role, calling the handle getter twice with the same
topic in one session returns the identical cached handle and leaves the
session unchanged by the second call (so no second construction happens);
on a fresh topic exactly one construction is performed. Hence at most one
producer handle and one consumer handle exist per topic per session. -/
theorem c6_handle_cache (s : Session) (topic : Option String) :
    ((getProducer (getProducer s topic).2 topic).1 = (getProducer s topic).1
      ∧ (getProducer (getProducer s topic).2 topic).2 = (getProducer s topic).2
      ∧ (s.producers (resolveTopic s topic) = none →
          (getProducer s topic).2.constructions = s.constructions + 1))
    ∧ ((getConsumer (getConsumer s topic).2 topic).1 = (getConsumer s topic).1
      ∧ (getConsumer (getConsumer s topic).2 topic).2 = (getConsumer s topic).2
      ∧ (s.consumers (resolveTopic s topic) = none →
          (getConsumer s topic).2.constructions = s.constructions + 1)) := by
  refine ⟨⟨?_, ?_, fun hmiss => ?_⟩, ⟨?_, ?_, fun hmiss => ?_⟩⟩
  · rw [getProducer_hit _ topic _ (getProducer_cached_after s topic)]
  · rw [getProducer_hit _ topic _ (getProducer_cached_after s topic)]
  · rw [getProducer_miss s topic hmiss]
  · rw [getConsumer_hit _ topic _ (getConsumer_cached_after s topic)]
  · rw [getConsumer_hit _ topic _ (getConsumer_cached_after s topic)]
  · rw [getConsumer_miss s topic hmiss]

/-- Witness for C6 at a concrete fresh session: the second call returns the
first handle and only one construction happened. -/
theorem c6_handle_cache_witness :
    (getProducer (getProducer demoSession (some "t")).2 (some "t")).1 =
      (getProducer demoSession (some "t")).1
    ∧ (getProducer demoSession (some "t")).2.constructions = 1
    ∧ (getConsumer (getConsumer demoSession (some "t")).2 (some "t")).1 =
      (getConsumer demoSession (some "t")).1
    ∧ (getConsumer demoSession (some "t")).2.constructions = 1 := by
  have h := c6_handle_cache demoSession (some "t")
  exact ⟨h.1.1, h.1.2.2 rfl, h.2.1, h.2.2.2 rfl⟩

theorem handlerStep_messages (handler : Option Handler) (r : Record) (st : LoopSt) :
    (handlerStep handler r st).messages = st.messages := by
  unfold handlerStep
  cases handler with
  | none => rfl
  | some h => cases hr : h r.value r <;> simp [hr]

theorem handlerStep_count (handler : Option Handler) (r : Record) (st : LoopSt) :
    (handlerStep handler r st).count = st.count := by
  unfold handlerStep
  cases handler with
  | none => rfl
  | some h => cases hr : h r.value r <;> simp [hr]

theorem processRecords_no_cap (maxM : Nat) (handler : Option Handler) :
    ∀ (records : List Record) (st : LoopSt),
      (maxM = 0 ∨ st.count + records.length ≤ maxM) →
      (processRecords maxM handler records st).messages =
        st.messages ++ records.map Record.value
      ∧ (processRecords maxM handler records st).count = st.count + records.length := by
  intro records
  induction records with
  | nil => intro st _; simp [processRecords]
  | cons r rest ih =>
    intro st hcap
    have hSc : (handlerStep handler r
        { st with messages := st.messages ++ [r.value], count := st.count + 1 }).count =
        st.count + 1 := by
      rw [handlerStep_count]
    have hSm : (handlerStep handler r
        { st with messages := st.messages ++ [r.value], count := st.count + 1 }).messages =
        st.messages ++ [r.value] := by
      rw [handlerStep_messages]
    unfold processRecords
    dsimp only
    by_cases hif : maxM ≠ 0 ∧ maxM ≤ (handlerStep handler r
        { st with messages := st.messages ++ [r.value], count := st.count + 1 }).count
    · rw [if_pos hif]
      have h0 : maxM ≠ 0 := hif.1
      have hcap2 : st.count + (rest.length + 1) ≤ maxM := by
        cases hcap with
        | inl h => exact absurd h h0
        | inr h => simpa using h
      have hle : maxM ≤ st.count + 1 := by rw [hSc] at hif; exact hif.2
      have hrest : rest = [] := List.length_eq_zero.mp (by omega)
      subst hrest
      exact ⟨by rw [hSm]; simp, by rw [hSc]; simp⟩
    · rw [if_neg hif]
      have hcap3 : maxM = 0 ∨ (handlerStep handler r
          { st with messages := st.messages ++ [r.value], count := st.count + 1 }).count +
            rest.length ≤ maxM := by
        cases hcap with
        | inl h => exact Or.inl h
        | inr h => right; rw [hSc]; simp at h; omega
      obtain ⟨hm, hc⟩ := ih _ hcap3
      constructor
      · rw [hm, hSm]; simp
      · rw [hc, hSc]; simp; omega

theorem processBatch_no_cap (maxM : Nat) (handler : Option Handler) :
    ∀ (batch : Batch) (st : LoopSt),
      (maxM = 0 ∨ st.count + recCount batch ≤ maxM) →
      (processBatch maxM handler batch st).messages = st.messages ++ batchVals batch
      ∧ (processBatch maxM handler batch st).count = st.count + recCount batch := by
  intro batch
  induction batch with
  | nil => intro st _; simp [processBatch, recCount, batchVals]
  | cons p rest ih =>
    intro st hcap
    obtain ⟨tp, records⟩ := p
    have hsz : recCount ((tp, records) :: rest) = records.length + recCount rest := by
      simp [recCount]
    rw [hsz] at hcap
    have hrec : maxM = 0 ∨ st.count + records.length ≤ maxM := by
      cases hcap with
      | inl h => exact Or.inl h
      | inr h => right; omega
    obtain ⟨hm1, hc1⟩ := processRecords_no_cap maxM handler records st hrec
    have hrest : maxM = 0 ∨
        (processRecords maxM handler records st).count + recCount rest ≤ maxM := by
      cases hcap with
      | inl h => exact Or.inl h
      | inr h => right; rw [hc1]; omega
    obtain ⟨hm2, hc2⟩ := ih _ hrest
    constructor
    · show (processBatch maxM handler rest (processRecords maxM handler records st)).messages = _
      rw [hm2, hm1]
      simp [batchVals]
    · show (processBatch maxM handler rest (processRecords maxM handler records st)).count = _
      rw [hc2, hc1, hsz]
      omega

theorem consumeRun_exact_fill (maxM : Nat) (hM : maxM ≠ 0) (handler : Option Handler) :
    ∀ (polls : List Batch) (st : LoopSt) (pc : Nat),
      (∀ b ∈ polls, 1 ≤ recCount b) →
      st.count + schedCount polls = maxM →
      ((consumeRun maxM handler polls st pc).1.messages = st.messages ++ schedVals polls
       ∧ (consumeRun maxM handler polls st pc).1.count = maxM)
      ∧ (consumeRun maxM handler polls st pc).2 = pc + polls.length := by
  intro polls
  induction polls with
  | nil =>
    intro st pc _ hsum
    have hcnt : st.count = maxM := by simpa [schedCount] using hsum
    unfold consumeRun
    rw [if_pos ⟨hM, le_of_eq hcnt.symm⟩]
    exact ⟨⟨by simp [schedVals], hcnt⟩, by simp⟩
  | cons b rest ih =>
    intro st pc hav hsum
    have hb1 : 1 ≤ recCount b := hav b (List.mem_cons_self b rest)
    have hsum2 : st.count + (recCount b + schedCount rest) = maxM := by
      simpa [schedCount] using hsum
    have hlt : st.count < maxM := by omega
    unfold consumeRun
    rw [if_neg (fun hc => absurd hc.2 (Nat.not_le_of_lt hlt))]
    dsimp only
    have hbne : b.isEmpty = false := by
      cases b with
      | nil => simp [recCount] at hb1
      | cons x xs => rfl
    rw [hbne]
    simp only [Bool.false_eq_true, if_false]
    obtain ⟨hm1, hc1⟩ := processBatch_no_cap maxM handler b st (Or.inr (by omega))
    obtain ⟨⟨hm2, hc2⟩, hp2⟩ := ih (processBatch maxM handler b st) (pc + 1)
      (fun x hx => hav x (List.mem_cons_of_mem _ hx))
      (by rw [hc1]; omega)
    refine ⟨⟨?_, hc2⟩, ?_⟩
    · rw [hm2, hm1]
      simp [schedVals]
    · rw [hp2]
      simp
      omega

theorem batchVals_length (b : Batch) : (batchVals b).length = recCount b := by
  induction b with
  | nil => rfl
  | cons p rest ih => simp [batchVals, recCount] at ih ⊢; omega

theorem schedVals_length (polls : List Batch) :
    (schedVals polls).length = schedCount polls := by
  induction polls with
  | nil => rfl
  | cons b rest ih => simp [schedVals, schedCount, batchVals_length] at ih ⊢; omega

/-- Claim C7: over every poll schedule that delivers at least one record per
poll and exactly three records in total, consume with max_messages 3
returns exactly the three payloads in arrival order and performs no poll
beyond the one that delivered the third record. -/
theorem c7_consume_max3 (handler : Option Handler) (polls : List Batch)
    (havail : ∀ b ∈ polls, 1 ≤ recCount b) (htotal : schedCount polls = 3) :
    (consumeMessages 3 handler polls).1.messages = schedVals polls
    ∧ (consumeMessages 3 handler polls).1.messages.length = 3
    ∧ (consumeMessages 3 handler polls).2 = polls.length := by
  have h := consumeRun_exact_fill 3 (by decide) handler polls ⟨[], 0, []⟩ 0 havail
    (by simpa using htotal)
  refine ⟨by simpa [consumeMessages] using h.1.1, ?_, by simpa [consumeMessages] using h.2⟩
  have hm : (consumeMessages 3 handler polls).1.messages = schedVals polls := by
    simpa [consumeMessages] using h.1.1
  rw [hm, schedVals_length, htotal]

/-- A concrete schedule for the C7 witness: two polls delivering three
records in total. -/
def demoPollsC7 : List Batch := [[(0, [⟨1⟩, ⟨2⟩])], [(1, [⟨3⟩])]]

/-- Witness for C7 at a concrete schedule. -/
theorem c7_consume_max3_witness :
    (consumeMessages 3 none demoPollsC7).1.messages = [1, 2, 3]
    ∧ (consumeMessages 3 none demoPollsC7).2 = 2 := by
  have h := c7_consume_max3 none demoPollsC7 (by decide) (by decide)
  exact ⟨h.1.trans (by decide), h.2.2.trans (by decide)⟩

theorem consumeRun_until_empty (maxM : Nat) (handler : Option Handler)
    (post : List Batch) :
    ∀ (pre : List Batch) (st : LoopSt) (pc : Nat),
      (∀ b ∈ pre, b ≠ []) →
      (maxM = 0 ∨ st.count + schedCount pre < maxM) →
      ((consumeRun maxM handler (pre ++ [] :: post) st pc).1.messages =
         st.messages ++ schedVals pre
       ∧ (consumeRun maxM handler (pre ++ [] :: post) st pc).1.count =
         st.count + schedCount pre)
      ∧ (consumeRun maxM handler (pre ++ [] :: post) st pc).2 = pc + pre.length + 1 := by
  intro pre
  induction pre with
  | nil =>
    intro st pc _ hcap
    have hng : ¬(maxM ≠ 0 ∧ maxM ≤ st.count) := by
      cases hcap with
      | inl h => exact fun hc => hc.1 h
      | inr h => exact fun hc => absurd hc.2 (Nat.not_le_of_lt (by simpa [schedCount] using h))
    unfold consumeRun
    rw [if_neg hng]
    dsimp only
    simp [processBatch, schedVals, schedCount]
  | cons b rest ih =>
    intro st pc hne hcap
    simp only [List.cons_append]
    have hbne : b.isEmpty = false := by
      cases hb : b with
      | nil => exact absurd rfl (hb ▸ hne b (List.mem_cons_self b rest))
      | cons x xs => rfl
    have hcap2 : maxM = 0 ∨ st.count + (recCount b + schedCount rest) < maxM := by
      cases hcap with
      | inl h => exact Or.inl h
      | inr h => right; simpa [schedCount] using h
    have hng : ¬(maxM ≠ 0 ∧ maxM ≤ st.count) := by
      cases hcap2 with
      | inl h => exact fun hc => hc.1 h
      | inr h => exact fun hc => absurd hc.2 (Nat.not_le_of_lt (by omega))
    have hrec : maxM = 0 ∨ st.count + recCount b ≤ maxM := by
      cases hcap2 with
      | inl h => exact Or.inl h
      | inr h => right; omega
    obtain ⟨hm1, hc1⟩ := processBatch_no_cap maxM handler b st hrec
    have hcap3 : maxM = 0 ∨
        (processBatch maxM handler b st).count + schedCount rest < maxM := by
      cases hcap2 with
      | inl h => exact Or.inl h
      | inr h => right; rw [hc1]; omega
    obtain ⟨⟨hm2, hc2⟩, hp2⟩ := ih (processBatch maxM handler b st) (pc + 1)
      (fun x hx => hne x (List.mem_cons_of_mem _ hx)) hcap3
    unfold consumeRun
    rw [if_neg hng]
    dsimp only
    rw [hbne]
    simp only [Bool.false_eq_true, if_false]
    refine ⟨⟨?_, ?_⟩, ?_⟩
    · rw [hm2, hm1]
      simp [schedVals]
    · rw [hc2, hc1]
      simp [schedCount]
      omega
    · rw [hp2]
      simp
      omega

/-- Claim C8: the consume loop stops at the first poll that returns no
records, returning the messages accumulated so far, even when the cap has
not been reached; later polls in the schedule are never performed. -/
theorem c8_consume_stops_on_empty_poll (maxM : Nat) (handler : Option Handler)
    (pre post : List Batch)
    (hne : ∀ b ∈ pre, b ≠ [])
    (hcap : maxM = 0 ∨ schedCount pre < maxM) :
    (consumeMessages maxM handler (pre ++ [] :: post)).1.messages = schedVals pre
    ∧ (consumeMessages maxM handler (pre ++ [] :: post)).2 = pre.length + 1 := by
  have h := consumeRun_until_empty maxM handler post pre ⟨[], 0, []⟩ 0 hne
    (by simpa using hcap)
  exact ⟨by simpa [consumeMessages] using h.1.1, by simpa [consumeMessages] using h.2⟩

/-- A concrete schedule prefix for the C8 witness: one poll delivering two
records, then an empty poll, then a further (never performed) empty poll. -/
def demoPreC8 : List Batch := [[(0, [⟨1⟩, ⟨2⟩])]]

/-- Witness for C8: max_messages 5 with only two records ever available
returns exactly the two messages and stops at the first empty poll. -/
theorem c8_consume_stops_on_empty_poll_witness :
    (consumeMessages 5 none (demoPreC8 ++ [] :: [[]])).1.messages = [1, 2]
    ∧ (consumeMessages 5 none (demoPreC8 ++ [] :: [[]])).2 = 2 := by
  have h := c8_consume_stops_on_empty_poll 5 none demoPreC8 [[]] (by decide) (by decide)
  exact ⟨h.1.trans (by decide), h.2.trans (by decide)⟩

theorem processRecords_handler_agnostic (maxM : Nat) (h₁ h₂ : Option Handler) :
    ∀ (records : List Record) (st₁ st₂ : LoopSt),
      st₁.messages = st₂.messages → st₁.count = st₂.count →
      (processRecords maxM h₁ records st₁).messages =
        (processRecords maxM h₂ records st₂).messages
      ∧ (processRecords maxM h₁ records st₁).count =
        (processRecords maxM h₂ records st₂).count := by
  intro records
  induction records with
  | nil => intro st₁ st₂ hm hc; simpa [processRecords] using ⟨hm, hc⟩
  | cons r rest ih =>
    intro st₁ st₂ hm hc
    have m1 : (handlerStep h₁ r
        { st₁ with messages := st₁.messages ++ [r.value], count := st₁.count + 1 }).messages =
        st₁.messages ++ [r.value] := by rw [handlerStep_messages]
    have c1 : (handlerStep h₁ r
        { st₁ with messages := st₁.messages ++ [r.value], count := st₁.count + 1 }).count =
        st₁.count + 1 := by rw [handlerStep_count]
    have m2 : (handlerStep h₂ r
        { st₂ with messages := st₂.messages ++ [r.value], count := st₂.count + 1 }).messages =
        st₂.messages ++ [r.value] := by rw [handlerStep_messages]
    have c2 : (handlerStep h₂ r
        { st₂ with messages := st₂.messages ++ [r.value], count := st₂.count + 1 }).count =
        st₂.count + 1 := by rw [handlerStep_count]
    unfold processRecords
    dsimp only
    by_cases hif : maxM ≠ 0 ∧ maxM ≤ st₁.count + 1
    · rw [if_pos (by rw [c1]; exact hif), if_pos (by rw [c2, ← hc]; exact hif)]
      exact ⟨by rw [m1, m2, hm], by rw [c1, c2, hc]⟩
    · rw [if_neg (by rw [c1]; exact hif), if_neg (by rw [c2, ← hc]; exact hif)]
      exact ih _ _ (by rw [m1, m2, hm]) (by rw [c1, c2, hc])

theorem processBatch_handler_agnostic (maxM : Nat) (h₁ h₂ : Option Handler) :
    ∀ (batch : Batch) (st₁ st₂ : LoopSt),
      st₁.messages = st₂.messages → st₁.count = st₂.count →
      (processBatch maxM h₁ batch st₁).messages =
        (processBatch maxM h₂ batch st₂).messages
      ∧ (processBatch maxM h₁ batch st₁).count =
        (processBatch maxM h₂ batch st₂).count := by
  intro batch
  induction batch with
  | nil => intro st₁ st₂ hm hc; simpa [processBatch] using ⟨hm, hc⟩
  | cons p rest ih =>
    intro st₁ st₂ hm hc
    obtain ⟨tp, records⟩ := p
    obtain ⟨hm1, hc1⟩ := processRecords_handler_agnostic maxM h₁ h₂ records st₁ st₂ hm hc
    exact ih _ _ hm1 hc1

theorem consumeRun_handler_agnostic (maxM : Nat) (h₁ h₂ : Option Handler) :
    ∀ (polls : List Batch) (st₁ st₂ : LoopSt) (pc : Nat),
      st₁.messages = st₂.messages → st₁.count = st₂.count →
      (consumeRun maxM h₁ polls st₁ pc).1.messages =
        (consumeRun maxM h₂ polls st₂ pc).1.messages
      ∧ (consumeRun maxM h₁ polls st₁ pc).1.count =
        (consumeRun maxM h₂ polls st₂ pc).1.count
      ∧ (consumeRun maxM h₁ polls st₁ pc).2 = (consumeRun maxM h₂ polls st₂ pc).2 := by
  intro polls
  induction polls with
  | nil =>
    intro st₁ st₂ pc hm hc
    unfold consumeRun
    by_cases hif : maxM ≠ 0 ∧ maxM ≤ st₁.count
    · rw [if_pos hif, if_pos (hc ▸ hif)]
      exact ⟨hm, hc, rfl⟩
    · rw [if_neg hif, if_neg (hc ▸ hif)]
      exact ⟨hm, hc, rfl⟩
  | cons b rest ih =>
    intro st₁ st₂ pc hm hc
    obtain ⟨hm1, hc1⟩ := processBatch_handler_agnostic maxM h₁ h₂ b st₁ st₂ hm hc
    unfold consumeRun
    by_cases hif : maxM ≠ 0 ∧ maxM ≤ st₁.count
    · rw [if_pos hif, if_pos (hc ▸ hif)]
      exact ⟨hm, hc, rfl⟩
    · rw [if_neg hif, if_neg (hc ▸ hif)]
      dsimp only
      cases hbe : b.isEmpty with
      | true => simp only [reduceIte]; exact ⟨hm1, hc1, trivial⟩
      | false =>
        simp only [Bool.false_eq_true, if_false]
        exact ih _ _ (pc + 1) hm1 hc1

/-- Claim C9: the handler runs inside a per-record error boundary, so the
messages returned by consume, and the number of polls performed, are
identical for any two handlers — in particular a raising handler yields
exactly what a never-raising handler (or no handler) yields, and a handler
failure never makes consume itself fail: the loop is total and returns the
accumulated messages regardless of handler outcome. -/
theorem c9_handler_failure_swallowed (maxM : Nat) (h₁ h₂ : Option Handler)
    (polls : List Batch) :
    (consumeMessages maxM h₁ polls).1.messages =
      (consumeMessages maxM h₂ polls).1.messages
    ∧ (consumeMessages maxM h₁ polls).1.count =
      (consumeMessages maxM h₂ polls).1.count
    ∧ (consumeMessages maxM h₁ polls).2 = (consumeMessages maxM h₂ polls).2 := by
  exact consumeRun_handler_agnostic maxM h₁ h₂ polls ⟨[], 0, []⟩ ⟨[], 0, []⟩ 0 rfl rfl

/-- Claim C10: the max_messages cap is enforced only within each partition
list of a poll batch — one poll spanning two partitions of one record each
with max_messages 1 returns 2 messages — and max_messages 0 means no cap at
all: the loop polls on past the cap check until the first empty poll
instead of returning an empty sequence. -/
theorem c10_cap_per_partition_and_zero_cap :
    ((consumeMessages 1 none [[(0, [⟨10⟩]), (1, [⟨20⟩])]]).1.messages = [10, 20]
      ∧ 1 < (consumeMessages 1 none [[(0, [⟨10⟩]), (1, [⟨20⟩])]]).1.messages.length)
    ∧ ((consumeMessages 0 none [[(0, [⟨1⟩])], [(0, [⟨2⟩])]]).1.messages = [1, 2]
      ∧ (consumeMessages 0 none [[(0, [⟨1⟩])], [(0, [⟨2⟩])]]).2 = 3) := by
  decide
